import Mathlib

/-!
Verification of the sales-dashboard data-fetching and caching layer.

The definitions below are a shallow embedding of the repository's core:
the TTL cache class (src/types/cache.types.ts), the cache-key builder
and the fetch controller (src/components/SalesDashboard.tsx and the
unnamed controller variant src/unnamed/part_005), and the query-string
builders (src/components/SalesDashboard.tsx and src/lib/api.ts /
src/unnamed/part_002).  Time is modelled as epoch milliseconds (Nat),
the browser Map as an association list, and network calls as explicit
oracle arguments together with a flag recording whether the call was
issued.
-/

/-! ## The Cache class (src/types/cache.types.ts, lines 14-47)

A JS Map from string keys to entries carrying the stored value and the
timestamp at which it was stored. -/

/-- Embeds the TS interface CacheItem of T: data plus timestamp (ms). -/
structure CacheItem (V : Type) where
  data : V
  timestamp : Nat
deriving DecidableEq, Repr

/-- Lookup in the underlying Map (association list, first match wins). -/
def mapLookup {V : Type} (key : String) : List (String × V) → Option V
  | [] => none
  | p :: rest => if p.1 = key then some p.2 else mapLookup key rest

/-- Map.delete: removes every binding of the key (a JS Map has at most one). -/
def mapErase {V : Type} (key : String) (l : List (String × V)) : List (String × V) :=
  l.filter (fun p => p.1 ≠ key)

/-- Map.set: replaces the binding in place when the key is present,
otherwise appends it. -/
def mapInsert {V : Type} (key : String) (v : V) : List (String × V) → List (String × V)
  | [] => [(key, v)]
  | p :: rest => if p.1 = key then (key, v) :: rest else p :: mapInsert key v rest

/-- Embeds the Cache class: the private Map and the configured duration
(TTL in ms, default 3600000). -/
structure Cache (V : Type) where
  store : List (String × CacheItem V)
  duration : Nat
deriving DecidableEq, Repr

namespace Cache

/-- Embeds Cache.get (cache.types.ts lines 22-31): return the data if the
entry is present and now - timestamp < duration; otherwise delete the
entry and return null.  The pair carries the possibly mutated cache. -/
def get {V : Type} (c : Cache V) (key : String) (now : Nat) : Option V × Cache V :=
  match mapLookup key c.store with
  | some cached =>
    if now - cached.timestamp < c.duration then (some cached.data, c)
    else (none, { c with store := mapErase key c.store })
  | none => (none, { c with store := mapErase key c.store })

/-- Embeds Cache.set (cache.types.ts lines 33-38): unconditionally store
the value with the current time as timestamp. -/
def set {V : Type} (c : Cache V) (key : String) (v : V) (now : Nat) : Cache V :=
  { c with store := mapInsert key ⟨v, now⟩ c.store }

/-- Embeds Cache.clear (cache.types.ts lines 40-42). -/
def clear {V : Type} (c : Cache V) : Cache V :=
  { c with store := [] }

/-- Embeds Cache.has (cache.types.ts lines 44-46): defined as
get(key) is not null, with get's eviction side effect. -/
def has {V : Type} (c : Cache V) (key : String) (now : Nat) : Bool × Cache V :=
  let r := get c key now
  (r.1.isSome, r.2)

end Cache

/-! Basic association-list lemmas used by the cache theorems. -/

theorem mapLookup_mapErase {V : Type} (key : String) (l : List (String × V)) :
    mapLookup key (mapErase key l) = none := by
  induction l with
  | nil => rfl
  | cons p rest ih =>
    by_cases h : p.1 = key
    · simp [mapErase, h] at ih ⊢
      simpa [mapErase] using ih
    · simp [mapErase, h] at ih ⊢
      simpa [mapLookup, h, mapErase] using ih

theorem mapLookup_mapInsert {V : Type} (key : String) (v : V) (l : List (String × V)) :
    mapLookup key (mapInsert key v l) = some v := by
  induction l with
  | nil => simp [mapInsert, mapLookup]
  | cons p rest ih =>
    by_cases h : p.1 = key
    · simp [mapInsert, h, mapLookup]
    · simp [mapInsert, h, mapLookup, ih]

/-! ## The cache-key builder (src/components/SalesDashboard.tsx line 168,
src/unnamed/part_005 line 114)

getCacheKey(filters) is JSON.stringify(filters).  The filters argument is
a flat JS object whose own enumerable properties are all strings, so the
serialization is the object brace form over the properties in insertion
order, each key and value quoted with the ECMA-262 QuoteJSONString
escaping.  A QueryParams object is therefore embedded as the ordered
association list of its properties. -/

/-- Lowercase hex digit, as produced by JSON.stringify unicode escapes. -/
def hexDigitChar (n : Nat) : Char :=
  if n < 10 then Char.ofNat (48 + n) else Char.ofNat (87 + n)

/-- QuoteJSONString escaping of one code point: the named two-character
escapes, then quote and backslash, then other control characters as a
four-digit unicode escape; all other characters stand for themselves. -/
def escapeChar (c : Char) : List Char :=
  if c = '"' then ['\\', '"']
  else if c = '\\' then ['\\', '\\']
  else if c = '\x08' then ['\\', 'b']
  else if c = '\x09' then ['\\', 't']
  else if c = '\x0a' then ['\\', 'n']
  else if c = '\x0c' then ['\\', 'f']
  else if c = '\x0d' then ['\\', 'r']
  else if c.toNat < 32 then
    ['\\', 'u', '0', '0', hexDigitChar (c.toNat / 16), hexDigitChar (c.toNat % 16)]
  else [c]

/-- Escape every character of a string body. -/
def escapeList : List Char → List Char
  | [] => []
  | c :: cs => escapeChar c ++ escapeList cs

/-- A JSON string literal: quote, escaped body, quote. -/
def quoteJson (s : String) : List Char :=
  '"' :: escapeList s.toList ++ ['"']

/-- One key-value member of the serialized object. -/
def encodePair (p : String × String) : List Char :=
  quoteJson p.1 ++ ':' :: quoteJson p.2

/-- Comma-separated members, in property insertion order. -/
def encodeEntries : List (String × String) → List Char
  | [] => []
  | [p] => encodePair p
  | p :: q :: ps => encodePair p ++ ',' :: encodeEntries (q :: ps)

/-- Embeds getCacheKey: JSON.stringify of the filters object. -/
def getCacheKey (filters : List (String × String)) : String :=
  String.mk ('{' :: encodeEntries filters ++ ['}'])

/-- Field-wise equality of two JS objects: every property name resolves to
the same value (lookup follows JS object property access: at most one
binding per name, the embedding reads the first). -/
def lookupKey (k : String) : List (String × String) → Option String
  | [] => none
  | p :: rest => if p.1 = k then some p.2 else lookupKey k rest

/-- Two QueryParams objects are field-wise equal when every key is mapped
to the same value in both, regardless of insertion order. -/
def fieldwiseEq (p1 p2 : List (String × String)) : Prop :=
  ∀ k, lookupKey k p1 = lookupKey k p2

/-! ## A decoder for the serialized form

The decoder below is not part of the repository; it exists solely to
prove that the serialization is injective (two distinct filter objects
never collide on one cache key). -/

/-- Value of one hex digit, accepting the digits QuoteJSONString emits. -/
def parseHexDigit (c : Char) : Option Nat :=
  if 48 ≤ c.toNat ∧ c.toNat ≤ 57 then some (c.toNat - 48)
  else if 97 ≤ c.toNat ∧ c.toNat ≤ 102 then some (c.toNat - 87)
  else none

/-- Prepend a decoded character to a pending parse result. -/
def mapConsChar (c : Char) (o : Option (List Char × List Char)) :
    Option (List Char × List Char) :=
  match o with
  | some p => some (c :: p.1, p.2)
  | none => none

/-- Decode an escaped string body up to (and consuming) the closing
quote, returning the decoded body and the remaining input. -/
def parseStrBody : List Char → Option (List Char × List Char)
  | [] => none
  | c :: rest =>
    if c = '"' then some ([], rest)
    else if c = '\\' then
      match rest with
      | [] => none
      | e :: rest2 =>
        if e = '"' then mapConsChar '"' (parseStrBody rest2)
        else if e = '\\' then mapConsChar '\\' (parseStrBody rest2)
        else if e = 'b' then mapConsChar '\x08' (parseStrBody rest2)
        else if e = 't' then mapConsChar '\x09' (parseStrBody rest2)
        else if e = 'n' then mapConsChar '\x0a' (parseStrBody rest2)
        else if e = 'f' then mapConsChar '\x0c' (parseStrBody rest2)
        else if e = 'r' then mapConsChar '\x0d' (parseStrBody rest2)
        else if e = 'u' then
          match rest2 with
          | h1 :: h2 :: h3 :: h4 :: rest3 =>
            match parseHexDigit h1, parseHexDigit h2, parseHexDigit h3, parseHexDigit h4 with
            | some a, some b, some c2, some d =>
              mapConsChar (Char.ofNat (((a * 16 + b) * 16 + c2) * 16 + d)) (parseStrBody rest3)
            | _, _, _, _ => none
          | _ => none
        else none
    else mapConsChar c (parseStrBody rest)

/-- Decode one quoted key, the colon, and one quoted value. -/
def parsePairL (l : List Char) : Option ((List Char × List Char) × List Char) :=
  match l with
  | [] => none
  | c :: r =>
    if c = '"' then
      match parseStrBody r with
      | some kr =>
        match kr.2 with
        | c1 :: c2 :: r2 =>
          if c1 = ':' ∧ c2 = '"' then
            match parseStrBody r2 with
            | some vr => some ((kr.1, vr.1), vr.2)
            | none => none
          else none
        | _ => none
      | none => none
    else none

/-- Decode a nonempty comma-separated member list terminated by the
closing brace at the very end of the input. -/
def parseEntriesFuel : Nat → List Char → Option (List (List Char × List Char))
  | 0, _ => none
  | Nat.succ f, l =>
    match parsePairL l with
    | some pr =>
      match pr.2 with
      | [] => none
      | c :: r =>
        if c = ',' then Option.map (fun ps => pr.1 :: ps) (parseEntriesFuel f r)
        else if c = '}' ∧ r = [] then some [pr.1]
        else none
    | none => none

/-- Decode a whole serialized object back into its ordered members. -/
def parseCacheKey (s : String) : Option (List (List Char × List Char)) :=
  match s.toList with
  | [] => none
  | c :: rest =>
    if c = '{' then
      if rest = ['}'] then some []
      else parseEntriesFuel rest.length rest
    else none

/-! Round-trip lemmas: the decoder inverts the encoder. -/

theorem parseHexDigit_hexDigitChar : ∀ n, n < 16 → parseHexDigit (hexDigitChar n) = some n := by
  decide

theorem psb_close (l : List Char) : parseStrBody ('"' :: l) = some ([], l) := by
  rw [parseStrBody.eq_def]; simp

theorem psb_esc_quote (l : List Char) :
    parseStrBody ('\\' :: '"' :: l) = mapConsChar '"' (parseStrBody l) := by
  rw [parseStrBody.eq_def]; simp

theorem psb_esc_back (l : List Char) :
    parseStrBody ('\\' :: '\\' :: l) = mapConsChar '\\' (parseStrBody l) := by
  rw [parseStrBody.eq_def]; simp

theorem psb_esc_b (l : List Char) :
    parseStrBody ('\\' :: 'b' :: l) = mapConsChar '\x08' (parseStrBody l) := by
  rw [parseStrBody.eq_def]; simp

theorem psb_esc_t (l : List Char) :
    parseStrBody ('\\' :: 't' :: l) = mapConsChar '\x09' (parseStrBody l) := by
  rw [parseStrBody.eq_def]; simp

theorem psb_esc_n (l : List Char) :
    parseStrBody ('\\' :: 'n' :: l) = mapConsChar '\x0a' (parseStrBody l) := by
  rw [parseStrBody.eq_def]; simp

theorem psb_esc_f (l : List Char) :
    parseStrBody ('\\' :: 'f' :: l) = mapConsChar '\x0c' (parseStrBody l) := by
  rw [parseStrBody.eq_def]; simp

theorem psb_esc_r (l : List Char) :
    parseStrBody ('\\' :: 'r' :: l) = mapConsChar '\x0d' (parseStrBody l) := by
  rw [parseStrBody.eq_def]; simp

theorem psb_plain (c : Char) (l : List Char) (h1 : ¬ c = '"') (h2 : ¬ c = '\\') :
    parseStrBody (c :: l) = mapConsChar c (parseStrBody l) := by
  rw [parseStrBody.eq_def]
  simp only [if_neg h1, if_neg h2]

theorem psb_u00 (a b : Char) (m n : Nat) (ha : parseHexDigit a = some m)
    (hb : parseHexDigit b = some n) (l : List Char) :
    parseStrBody ('\\' :: 'u' :: '0' :: '0' :: a :: b :: l)
      = mapConsChar (Char.ofNat (m * 16 + n)) (parseStrBody l) := by
  have h0 : parseHexDigit '0' = some 0 := rfl
  rw [parseStrBody.eq_def]
  simp only [h0, ha, hb]
  simp

theorem parseStrBody_escapeList (s rest : List Char) :
    parseStrBody (escapeList s ++ '"' :: rest) = some (s, rest) := by
  induction s with
  | nil => simpa [escapeList] using psb_close rest
  | cons c cs ih =>
    rw [escapeList, List.append_assoc]
    by_cases h1 : c = '"'
    · subst h1
      rw [show escapeChar '"' = ['\\', '"'] from rfl]
      simp only [List.cons_append, List.nil_append]
      rw [psb_esc_quote, ih]
      rfl
    · by_cases h2 : c = '\\'
      · subst h2
        rw [show escapeChar '\\' = ['\\', '\\'] from rfl]
        simp only [List.cons_append, List.nil_append]
        rw [psb_esc_back, ih]
        rfl
      · by_cases h3 : c = '\x08'
        · subst h3
          rw [show escapeChar '\x08' = ['\\', 'b'] from rfl]
          simp only [List.cons_append, List.nil_append]
          rw [psb_esc_b, ih]
          rfl
        · by_cases h4 : c = '\x09'
          · subst h4
            rw [show escapeChar '\x09' = ['\\', 't'] from rfl]
            simp only [List.cons_append, List.nil_append]
            rw [psb_esc_t, ih]
            rfl
          · by_cases h5 : c = '\x0a'
            · subst h5
              rw [show escapeChar '\x0a' = ['\\', 'n'] from rfl]
              simp only [List.cons_append, List.nil_append]
              rw [psb_esc_n, ih]
              rfl
            · by_cases h6 : c = '\x0c'
              · subst h6
                rw [show escapeChar '\x0c' = ['\\', 'f'] from rfl]
                simp only [List.cons_append, List.nil_append]
                rw [psb_esc_f, ih]
                rfl
              · by_cases h7 : c = '\x0d'
                · subst h7
                  rw [show escapeChar '\x0d' = ['\\', 'r'] from rfl]
                  simp only [List.cons_append, List.nil_append]
                  rw [psb_esc_r, ih]
                  rfl
                · by_cases h8 : c.toNat < 32
                  · rw [show escapeChar c
                        = ['\\', 'u', '0', '0', hexDigitChar (c.toNat / 16),
                           hexDigitChar (c.toNat % 16)] from by
                      rw [escapeChar]
                      simp only [if_neg h1, if_neg h2, if_neg h3, if_neg h4, if_neg h5,
                        if_neg h6, if_neg h7, if_pos h8]]
                    simp only [List.cons_append, List.nil_append]
                    rw [psb_u00 _ _ (c.toNat / 16) (c.toNat % 16)
                        (parseHexDigit_hexDigitChar _ (by omega))
                        (parseHexDigit_hexDigitChar _ (by omega)), ih]
                    rw [show c.toNat / 16 * 16 + c.toNat % 16 = c.toNat from by omega]
                    rw [Char.ofNat_toNat]
                    rfl
                  · rw [show escapeChar c = [c] from by
                      rw [escapeChar]
                      simp only [if_neg h1, if_neg h2, if_neg h3, if_neg h4, if_neg h5,
                        if_neg h6, if_neg h7, if_neg h8]]
                    simp only [List.cons_append, List.nil_append]
                    rw [psb_plain c _ h1 h2, ih]
                    rfl

theorem parsePairL_encode (k v : String) (rest : List Char) :
    parsePairL (encodePair (k, v) ++ rest) = some ((k.toList, v.toList), rest) := by
  have hshape : encodePair (k, v) ++ rest
      = '"' :: (escapeList k.toList
          ++ '"' :: ':' :: '"' :: (escapeList v.toList ++ '"' :: rest)) := by
    simp [encodePair, quoteJson]
  rw [hshape, parsePairL.eq_def]
  simp only [parseStrBody_escapeList]
  simp

theorem parseEntriesFuel_encode :
    ∀ (ps : List (String × String)) (f : Nat), ps ≠ [] → ps.length ≤ f →
      parseEntriesFuel f (encodeEntries ps ++ ['}'])
        = some (ps.map (fun p => (p.1.toList, p.2.toList))) := by
  intro ps
  induction ps with
  | nil => intro f h _; exact absurd rfl h
  | cons p tail ih =>
    intro f _ hlen
    cases tail with
    | nil =>
      cases f with
      | zero => simp at hlen
      | succ f2 =>
        have h1 : encodeEntries [p] ++ ['}'] = encodePair (p.1, p.2) ++ '}' :: [] := by
          simp [encodeEntries]
        rw [h1]
        simp only [parseEntriesFuel, parsePairL_encode]
        simp
    | cons q tail2 =>
      cases f with
      | zero => simp at hlen
      | succ f2 =>
        have h1 : encodeEntries (p :: q :: tail2) ++ ['}']
            = encodePair (p.1, p.2) ++ ',' :: (encodeEntries (q :: tail2) ++ ['}']) := by
          simp [encodeEntries]
        have hlen2 : (q :: tail2).length ≤ f2 := by
          simp only [List.length_cons] at hlen ⊢
          omega
        rw [h1]
        simp only [parseEntriesFuel, parsePairL_encode]
        rw [ih f2 (by simp) hlen2]
        simp

theorem encodePair_shape (p : String × String) :
    ∃ Z, encodePair p = '"' :: Z := by
  refine ⟨escapeList p.1.toList ++ '"' :: ':' :: quoteJson p.2, ?_⟩
  simp [encodePair, quoteJson]

theorem encodeEntries_shape (p : String × String) (t : List (String × String)) :
    ∃ Z, encodeEntries (p :: t) = '"' :: Z := by
  obtain ⟨Y, hY⟩ := encodePair_shape p
  cases t with
  | nil => exact ⟨Y, by simpa [encodeEntries] using hY⟩
  | cons q t2 =>
    refine ⟨Y ++ ',' :: encodeEntries (q :: t2), ?_⟩
    simp [encodeEntries, hY]

theorem length_encodeEntries :
    ∀ ps : List (String × String), ps.length ≤ (encodeEntries ps).length := by
  intro ps
  induction ps with
  | nil => simp [encodeEntries]
  | cons p t ih =>
    cases t with
    | nil => obtain ⟨Z, hZ⟩ := encodeEntries_shape p []; simp [hZ]
    | cons q t2 =>
      rw [show encodeEntries (p :: q :: t2)
          = encodePair p ++ ',' :: encodeEntries (q :: t2) from rfl]
      simp only [List.length_cons, List.length_append] at ih ⊢
      omega

theorem parseCacheKey_getCacheKey (ps : List (String × String)) :
    parseCacheKey (getCacheKey ps)
      = some (ps.map (fun p => (p.1.toList, p.2.toList))) := by
  cases ps with
  | nil => rfl
  | cons p t =>
    obtain ⟨Z, hZ⟩ := encodeEntries_shape p t
    have hne : ¬ encodeEntries (p :: t) ++ ['}'] = ['}'] := by
      rw [hZ]; simp
    have hlen : (p :: t).length ≤ (encodeEntries (p :: t) ++ ['}']).length := by
      have h2 := length_encodeEntries (p :: t)
      simp only [List.length_cons, List.length_append, List.length_nil] at h2 ⊢
      omega
    unfold parseCacheKey
    rw [show (getCacheKey (p :: t)).toList
        = '{' :: (encodeEntries (p :: t) ++ ['}']) from rfl]
    simp only [if_pos rfl, if_neg hne]
    exact parseEntriesFuel_encode (p :: t) _ (by simp) hlen

theorem getCacheKey_inj (p1 p2 : List (String × String))
    (h : getCacheKey p1 = getCacheKey p2) : p1 = p2 := by
  have h1 := parseCacheKey_getCacheKey p1
  have h2 := parseCacheKey_getCacheKey p2
  rw [h, h2] at h1
  have h3 := Option.some.inj h1
  have hstr : ∀ s t : String, s.toList = t.toList → s = t := by
    intro s t hst
    cases s
    cases t
    exact congrArg String.mk hst
  have hinj : Function.Injective (fun p : String × String => (p.1.toList, p.2.toList)) := by
    intro a b hab
    simp only [Prod.mk.injEq] at hab
    exact Prod.ext (hstr _ _ hab.1) (hstr _ _ hab.2)
  exact List.map_injective_iff.mpr hinj h3.symm

theorem lookupKey_eq_none {k : String} {l : List (String × String)}
    (h : k ∉ l.map Prod.fst) : lookupKey k l = none := by
  induction l with
  | nil => rfl
  | cons p rest ih =>
    simp only [List.map_cons, List.mem_cons] at h
    push_neg at h
    rw [lookupKey, if_neg (fun he => h.1 he.symm)]
    exact ih h.2

theorem eq_of_fieldwiseEq :
    ∀ p1 p2 : List (String × String),
      p1.map Prod.fst = p2.map Prod.fst → (p1.map Prod.fst).Nodup →
      fieldwiseEq p1 p2 → p1 = p2 := by
  intro p1
  induction p1 with
  | nil =>
    intro p2 hmap _ _
    symm
    exact List.map_eq_nil_iff.mp hmap.symm
  | cons a t ih =>
    intro p2 hmap hnd hfw
    cases p2 with
    | nil => simp at hmap
    | cons b t2 =>
      simp only [List.map_cons, List.cons.injEq] at hmap
      obtain ⟨hk, hmap2⟩ := hmap
      have hv := hfw a.1
      rw [show lookupKey a.1 (a :: t) = some a.2 from by rw [lookupKey, if_pos rfl],
          show lookupKey a.1 (b :: t2) = some b.2 from by rw [lookupKey, if_pos hk.symm]] at hv
      have hab : a = b := Prod.ext hk (Option.some.inj hv)
      simp only [List.map_cons, List.nodup_cons] at hnd
      have hnotin2 : a.1 ∉ t2.map Prod.fst := by rw [← hmap2]; exact hnd.1
      have hfw2 : fieldwiseEq t t2 := by
        intro k
        by_cases hka : k = a.1
        · subst hka
          rw [lookupKey_eq_none hnd.1, lookupKey_eq_none hnotin2]
        · have h3 := hfw k
          rw [lookupKey, if_neg (fun he => hka he.symm)] at h3
          rw [show lookupKey k (b :: t2) = lookupKey k t2 from by
            rw [lookupKey, if_neg (fun he => hka ((hk.trans he).symm))]] at h3
          exact h3
      rw [hab, ih t2 hmap2 hnd.2 hfw2]

/-! ## Data model of the dashboard (src/components/SalesDashboard.tsx,
src/unnamed/part_000, src/unnamed/part_005)

The response shape is embedded with Option at exactly the places the
controller guards with optional chaining or a default: the results block,
its TotalSales and Sales arrays, the pagination block and its two
cursors. -/

/-- Embeds the TotalSale record: one day of aggregate sales. -/
structure TotalSale where
  day : String
  totalSale : Int
deriving DecidableEq, Repr

/-- Embeds the Sale record as received from the server. -/
structure Sale where
  _id : String
  date : String
  price : Int
  customerEmail : String
  customerPhone : String
  __v : Int
deriving DecidableEq, Repr

/-- The pagination block of a response; either cursor may be absent in
the raw JSON, which the controller defaults to the empty string. -/
structure RawPagination where
  before : Option String
  after : Option String
deriving DecidableEq, Repr

/-- The results block; either array may be absent in the raw JSON. -/
structure RawResults where
  TotalSales : Option (List TotalSale)
  Sales : Option (List Sale)
deriving DecidableEq, Repr

/-- A raw SalesResponse as the controller receives (and caches) it:
results and pagination may each be absent. -/
structure RawResponse where
  results : Option RawResults
  pagination : Option RawPagination
deriving DecidableEq, Repr

/-- The fetch direction argument of fetchSales: "next", "prev" or null. -/
inductive Direction where
  | next
  | prev
  | null
deriving DecidableEq, Repr

/-- The React state owned by the SalesDashboard component, together with
the module-level response cache it reads and writes. -/
structure DashState where
  authToken : Option String
  totalSalesData : List TotalSale
  salesData : List Sale
  loading : Bool
  error : Option String
  startDate : String
  endDate : String
  priceMin : String
  email : String
  phone : String
  beforeToken : String
  afterToken : String
  currentPage : Nat
  sortBy : String
  sortOrder : String
  dataCache : Cache RawResponse
deriving DecidableEq, Repr

/-- The user-facing message set by the fetch catch block
(SalesDashboard.tsx line 327, part_005 line 260). -/
def fetchFailedMsg : String := "Failed to load sales data. Please try again."

/-- The message set when the date range is invalid (part_005 lines
172-175). -/
def invalidRangeMsg : String :=
  "Please select a valid date range (start date must be before or equal to end date)"

/-- TOKEN_CACHE_KEY (SalesDashboard.tsx line 93). -/
def TOKEN_CACHE_KEY : String := "auth_token"

/-- Embeds the filters object literal built inside fetchSales
(SalesDashboard.tsx lines 248-258, part_005 lines 181-191): the seven
filter/sort fields in declaration order, then the after cursor spread in
only when direction is "next" and the token is nonempty, then the before
cursor spread in only when direction is "prev" and the token is
nonempty. -/
def buildFilters (st : DashState) (direction : Direction) : List (String × String) :=
  [("startDate", st.startDate), ("endDate", st.endDate), ("priceMin", st.priceMin),
   ("email", st.email), ("phone", st.phone), ("sortBy", st.sortBy),
   ("sortOrder", st.sortOrder)]
  ++ (if direction = Direction.next ∧ st.afterToken ≠ "" then [("after", st.afterToken)] else [])
  ++ (if direction = Direction.prev ∧ st.beforeToken ≠ "" then [("before", st.beforeToken)] else [])

/-- JS (value || "") on a string value. -/
def jsOrEmpty (v : String) : String :=
  if v = "" then "" else v

/-- Embeds the URLSearchParams built by the dashboard fetchSalesData
(SalesDashboard.tsx lines 126-131, part_005 lines 75-80): every entry of
the params object is appended, with (value || "") as the value. -/
def fetchSalesDataSearchParams (params : List (String × String)) : List (String × String) :=
  params.map (fun p => (p.1, jsOrEmpty p.2))

/-- Embeds the URLSearchParams built by the standalone api helper
(src/lib/api.ts lines 58-62, src/unnamed/part_002 lines 24-28): an entry
is appended only when its value is truthy, so empty-string fields are
dropped. -/
def apiFetchSalesDataSearchParams (params : List (String × String)) : List (String × String) :=
  params.filter (fun p => p.2 ≠ "")

/-! ## AuthManager (src/components/SalesDashboard.tsx lines 93-123)

getAuthToken consults the module-level tokenCache first; on a hit it
returns the cached token with no network call, otherwise it issues one
authorization request and, on success, caches and returns the new token.
The network is an oracle argument; the Nat in the result counts the
authorization calls issued. -/

/-- Result of one getAuthToken call: the token or an authorization
failure, the token cache afterwards, and the number of network calls. -/
structure AuthOutcome where
  result : Except Unit String
  tokenCache : Cache String
  networkCalls : Nat
deriving Repr

/-- Embeds getAuthToken: cache lookup, then at most one authorization
request whose reply (or failure) is the oracle argument. -/
def getAuthToken (tc : Cache String) (now : Nat) (net : Except Unit String) : AuthOutcome :=
  let r := Cache.get tc TOKEN_CACHE_KEY now
  match r.1 with
  | some cachedToken => ⟨Except.ok cachedToken, r.2, 0⟩
  | none =>
    match net with
    | Except.error e => ⟨Except.error e, r.2, 1⟩
    | Except.ok tok => ⟨Except.ok tok, Cache.set r.2 TOKEN_CACHE_KEY tok now, 1⟩

/-! ## The fetch operation (src/components/SalesDashboard.tsx lines
238-332, src/unnamed/part_005 lines 164-279)

fetchSales is embedded as a state transformer.  The network is an oracle
argument: a failed fetch (non-2xx or transport error) is Except.error, a
successful fetch carries the parsed JSON body, which may be null (hence
the inner Option).  networkCalled records whether fetchSalesData was
invoked, and loadingWrites records every value written to the loading
flag, in order. -/

/-- Result of one fetchSales call. -/
structure FetchOutcome where
  state : DashState
  networkCalled : Bool
  loadingWrites : List Bool
deriving DecidableEq, Repr

/-- The body of fetchSales after the auth-token guard: set loading true
and clear the error, build the filters object and its cache key, consult
the data cache (with its eviction side effect); on a hit adopt the cached
response and stop; on a miss call the network, validate that the body and
its results field are present, adopt the response, cache it, and in all
cases finally set loading false. -/
def fetchSalesCore (st : DashState) (direction : Direction) (now : Nat)
    (net : Except Unit (Option RawResponse)) : FetchOutcome :=
  let st1 := { st with loading := true, error := none }
  let key := getCacheKey (buildFilters st direction)
  let r := Cache.get st1.dataCache key now
  let st2 := { st1 with dataCache := r.2 }
  match r.1 with
  | some cached =>
    ⟨{ st2 with
        totalSalesData := (cached.results.bind RawResults.TotalSales).getD [],
        salesData := (cached.results.bind RawResults.Sales).getD [],
        beforeToken := (cached.pagination.bind RawPagination.before).getD "",
        afterToken := (cached.pagination.bind RawPagination.after).getD "",
        loading := false },
      false, [true, false]⟩
  | none =>
    match net with
    | Except.error _ =>
      ⟨{ st2 with error := some fetchFailedMsg, loading := false }, true, [true, false]⟩
    | Except.ok body =>
      match body with
      | none =>
        ⟨{ st2 with error := some fetchFailedMsg, loading := false }, true, [true, false]⟩
      | some data =>
        match data.results with
        | none =>
          ⟨{ st2 with error := some fetchFailedMsg, loading := false }, true, [true, false]⟩
        | some res =>
          ⟨{ st2 with
              totalSalesData := res.TotalSales.getD [],
              salesData := res.Sales.getD [],
              beforeToken := (data.pagination.bind RawPagination.before).getD "",
              afterToken := (data.pagination.bind RawPagination.after).getD "",
              dataCache := Cache.set r.2 key data now,
              loading := false },
            true, [true, false]⟩

/-- Embeds fetchSales of SalesDashboard.tsx (lines 238-332): return
immediately when no auth token is available, otherwise run the body. -/
def fetchSales (st : DashState) (direction : Direction) (now : Nat)
    (net : Except Unit (Option RawResponse)) : FetchOutcome :=
  match st.authToken with
  | none => ⟨st, false, []⟩
  | some _ => fetchSalesCore st direction now net

/-- JS string comparison (code-unit lexicographic), as used by
startDate <= endDate. -/
def jsCharListLe : List Char → List Char → Bool
  | [], _ => true
  | _ :: _, [] => false
  | a :: as, b :: bs =>
    if a.toNat < b.toNat then true
    else if b.toNat < a.toNat then false
    else jsCharListLe as bs

/-- JS s <= t on strings. -/
def jsStringLe (s t : String) : Bool :=
  jsCharListLe s.toList t.toList

/-- Embeds isDateRangeValid (part_005 lines 143-145):
not startDate, or not endDate, or startDate <= endDate. -/
def isDateRangeValid (st : DashState) : Bool :=
  st.startDate = "" || st.endDate = "" || jsStringLe st.startDate st.endDate

/-- Embeds fetchSales of the part_005 controller variant (lines 164-279):
identical to fetchSales except that after the auth guard an invalid date
range sets the validation message and returns before anything else
happens (no loading write, no cache access, no network call). -/
def fetchSalesValidated (st : DashState) (direction : Direction) (now : Nat)
    (net : Except Unit (Option RawResponse)) : FetchOutcome :=
  match st.authToken with
  | none => ⟨st, false, []⟩
  | some _ =>
    if isDateRangeValid st then fetchSalesCore st direction now net
    else ⟨{ st with error := some invalidRangeMsg }, false, []⟩

/-! ## Claim theorems -/

/-- Claim C7: for every key k and value v, set(k, v) at time t0 followed
by get(k) at any time strictly before t0 + ttl returns v; and at any
time at or after t0 + ttl, get(k) returns absent. -/
theorem c7_set_then_get {V : Type} (c : Cache V) (k : String) (v : V) (t0 t : Nat)
    (ht : t0 ≤ t) :
    (t < t0 + c.duration → ((Cache.set c k v t0).get k t).1 = some v)
  ∧ (t0 + c.duration ≤ t → ((Cache.set c k v t0).get k t).1 = none) := by
  have h1 : mapLookup k (Cache.set c k v t0).store = some ⟨v, t0⟩ :=
    mapLookup_mapInsert k _ c.store
  have hd : (Cache.set c k v t0).duration = c.duration := rfl
  constructor
  · intro h
    simp only [Cache.get, h1, hd]
    rw [if_pos (by omega : t - t0 < c.duration)]
  · intro h
    simp only [Cache.get, h1, hd]
    rw [if_neg (by omega : ¬ t - t0 < c.duration)]

/-- Claim C7 witness: a concrete set followed by a get inside the TTL
returns the value, and a get at exactly storedAt + ttl returns absent. -/
theorem c7_set_then_get_witness :
    ((Cache.set (⟨[], 1000⟩ : Cache Nat) "k" 7 0).get "k" 999).1 = some 7
  ∧ ((Cache.set (⟨[], 1000⟩ : Cache Nat) "k" 7 0).get "k" 1000).1 = none :=
  ⟨(c7_set_then_get ⟨[], 1000⟩ "k" 7 0 999 (by norm_num)).1 (by norm_num),
   (c7_set_then_get ⟨[], 1000⟩ "k" 7 0 1000 (by norm_num)).2 (by norm_num)⟩

/-- Claim C8: has(k) returns exactly the is-present verdict of get(k) and
performs the same state change (the lazy-eviction side effect); and after
a get that discovers an expired entry, the entry is physically removed,
so on the resulting cache get(k) is absent and has(k) is false at every
clock value, not merely at clocks past the expiry. -/
theorem c8_has_get_eviction {V : Type} (c : Cache V) (k : String) (now : Nat) :
    ((Cache.has c k now).1 = ((Cache.get c k now).1).isSome
      ∧ (Cache.has c k now).2 = (Cache.get c k now).2)
  ∧ (∀ e : CacheItem V, mapLookup k c.store = some e → c.duration ≤ now - e.timestamp →
      (Cache.get c k now).1 = none
      ∧ mapLookup k ((Cache.get c k now).2).store = none
      ∧ (∀ t, (Cache.get ((Cache.get c k now).2) k t).1 = none
          ∧ (Cache.has ((Cache.get c k now).2) k t).1 = false)) := by
  refine ⟨⟨rfl, rfl⟩, ?_⟩
  intro e he hexp
  have hget : Cache.get c k now = (none, { c with store := mapErase k c.store }) := by
    simp only [Cache.get, he]
    rw [if_neg (by omega : ¬ now - e.timestamp < c.duration)]
  refine ⟨by rw [hget], ?_, ?_⟩
  · rw [hget]
    exact mapLookup_mapErase k c.store
  · intro t
    rw [hget]
    have h2 : mapLookup k ({ c with store := mapErase k c.store } : Cache V).store = none :=
      mapLookup_mapErase k c.store
    constructor
    · simp only [Cache.get, h2]
    · simp only [Cache.has, Cache.get, h2, Option.isSome_none]

/-- Claim C8 witness: on a concrete cache holding an expired entry, has
agrees with get, the expired get evicts, and the evicted entry stays
absent at an earlier clock value. -/
theorem c8_has_get_eviction_witness :
    ((Cache.has (⟨[("k", ⟨3, 0⟩)], 10⟩ : Cache Nat) "k" 10).1
        = ((Cache.get (⟨[("k", ⟨3, 0⟩)], 10⟩ : Cache Nat) "k" 10).1).isSome)
  ∧ (Cache.get ((Cache.get (⟨[("k", ⟨3, 0⟩)], 10⟩ : Cache Nat) "k" 10).2) "k" 0).1 = none :=
  ⟨(c8_has_get_eviction (⟨[("k", ⟨3, 0⟩)], 10⟩ : Cache Nat) "k" 10).1.1,
   (((c8_has_get_eviction (⟨[("k", ⟨3, 0⟩)], 10⟩ : Cache Nat) "k" 10).2 ⟨3, 0⟩ (by decide)
      (by norm_num)).2.2 0).1⟩

/-- Claim C6: with the 60-minute token TTL, a getToken call while the
cached token is strictly younger than the TTL returns the cached token
with zero network calls and leaves the cache unchanged; once the cached
token is at least TTL old, getToken issues exactly one authorization call
and, when it succeeds, returns the fresh token and replaces the cached
entry with it. -/
theorem c6_getAuthToken_ttl (tc : Cache String) (t0 age : Nat) (tok newTok : String)
    (net : Except Unit String) (hd : tc.duration = 3600000)
    (hl : mapLookup TOKEN_CACHE_KEY tc.store = some ⟨tok, t0⟩) :
    (age < 3600000 → getAuthToken tc (t0 + age) net = ⟨Except.ok tok, tc, 0⟩)
  ∧ (3600000 ≤ age → net = Except.ok newTok →
      (getAuthToken tc (t0 + age) net).networkCalls = 1
      ∧ (getAuthToken tc (t0 + age) net).result = Except.ok newTok
      ∧ mapLookup TOKEN_CACHE_KEY (getAuthToken tc (t0 + age) net).tokenCache.store
          = some ⟨newTok, t0 + age⟩) := by
  constructor
  · intro h
    have hget : Cache.get tc TOKEN_CACHE_KEY (t0 + age) = (some tok, tc) := by
      simp only [Cache.get, hl, hd]
      rw [if_pos (by omega : t0 + age - t0 < 3600000)]
    simp only [getAuthToken, hget]
  · intro h hnet
    subst hnet
    have hget : Cache.get tc TOKEN_CACHE_KEY (t0 + age)
        = (none, { tc with store := mapErase TOKEN_CACHE_KEY tc.store }) := by
      simp only [Cache.get, hl, hd]
      rw [if_neg (by omega : ¬ t0 + age - t0 < 3600000)]
    have houtcome : getAuthToken tc (t0 + age) (Except.ok newTok)
        = ⟨Except.ok newTok,
            Cache.set { tc with store := mapErase TOKEN_CACHE_KEY tc.store }
              TOKEN_CACHE_KEY newTok (t0 + age), 1⟩ := by
      simp only [getAuthToken, hget]
    rw [houtcome]
    exact ⟨rfl, rfl, mapLookup_mapInsert TOKEN_CACHE_KEY _ _⟩

/-- Claim C6 witness: a token cached 30 minutes ago is served from cache
with no network call; a token cached 61 minutes ago triggers one
authorization call and the fresh token replaces it. -/
theorem c6_getAuthToken_ttl_witness :
    getAuthToken (⟨[("auth_token", ⟨"tokA", 0⟩)], 3600000⟩ : Cache String) 1800000
        (Except.ok "tokB")
      = ⟨Except.ok "tokA", ⟨[("auth_token", ⟨"tokA", 0⟩)], 3600000⟩, 0⟩
  ∧ (getAuthToken (⟨[("auth_token", ⟨"tokA", 0⟩)], 3600000⟩ : Cache String) 3660000
        (Except.ok "tokB")).networkCalls = 1
  ∧ mapLookup TOKEN_CACHE_KEY
      (getAuthToken (⟨[("auth_token", ⟨"tokA", 0⟩)], 3600000⟩ : Cache String) 3660000
        (Except.ok "tokB")).tokenCache.store = some ⟨"tokB", 3660000⟩ :=
  ⟨(c6_getAuthToken_ttl ⟨[("auth_token", ⟨"tokA", 0⟩)], 3600000⟩ 0 1800000 "tokA" "tokB"
      (Except.ok "tokB") rfl (by simp [mapLookup, TOKEN_CACHE_KEY])).1 (by norm_num),
   ((c6_getAuthToken_ttl ⟨[("auth_token", ⟨"tokA", 0⟩)], 3600000⟩ 0 3660000 "tokA" "tokB"
      (Except.ok "tokB") rfl (by simp [mapLookup, TOKEN_CACHE_KEY])).2 (by norm_num) rfl).1,
   ((c6_getAuthToken_ttl ⟨[("auth_token", ⟨"tokA", 0⟩)], 3600000⟩ 0 3660000 "tokA" "tokB"
      (Except.ok "tokB") rfl (by simp [mapLookup, TOKEN_CACHE_KEY])).2 (by norm_num) rfl).2.2⟩

/-- Claim C1 counterexample: two QueryParams objects holding the same
fields with the same values, constructed in different insertion orders,
are field-wise equal yet getCacheKey serializes them to different key
strings, because JSON.stringify follows property insertion order. -/
theorem c1_getCacheKey_counterexample :
    fieldwiseEq [("startDate", "2025-01-01"), ("endDate", "2025-01-31")]
                [("endDate", "2025-01-31"), ("startDate", "2025-01-01")]
  ∧ getCacheKey [("startDate", "2025-01-01"), ("endDate", "2025-01-31")]
      ≠ getCacheKey [("endDate", "2025-01-31"), ("startDate", "2025-01-01")] := by
  constructor
  · intro k
    by_cases h1 : ("startDate" : String) = k
    · have h2 : ¬ ("endDate" : String) = k := fun h => by
        rw [← h] at h1
        exact absurd h1 (by decide)
      simp only [lookupKey, if_pos h1, if_neg h2]
    · by_cases h2 : ("endDate" : String) = k
      · simp only [lookupKey, if_pos h2, if_neg h1]
      · simp only [lookupKey, if_neg h1, if_neg h2]
  · decide

/-- Claim C1 (amended): getCacheKey is deterministic for QueryParams
built with their fields in one fixed order — field-wise equal objects
with the same property order (and no duplicate property) get the same
key — and it is injective on values: two objects that disagree on the
value of some field always get different keys.  Order-independence as
originally claimed fails (see the counterexample). -/
theorem c1_getCacheKey_amended :
    (∀ p1 p2 : List (String × String),
        p1.map Prod.fst = p2.map Prod.fst → (p1.map Prod.fst).Nodup →
        fieldwiseEq p1 p2 → getCacheKey p1 = getCacheKey p2)
  ∧ (∀ (p1 p2 : List (String × String)) (k v1 v2 : String),
        lookupKey k p1 = some v1 → lookupKey k p2 = some v2 → v1 ≠ v2 →
        getCacheKey p1 ≠ getCacheKey p2) := by
  constructor
  · intro p1 p2 hmap hnd hfw
    rw [eq_of_fieldwiseEq p1 p2 hmap hnd hfw]
  · intro p1 p2 k v1 v2 h1 h2 hne heq
    have hp : p1 = p2 := getCacheKey_inj p1 p2 heq
    rw [hp, h2] at h1
    exact hne (Option.some.inj h1).symm

/-- Claim C1 witness: a concrete same-order pair gets equal keys, and a
concrete pair differing in one field value gets different keys. -/
theorem c1_getCacheKey_witness :
    getCacheKey [("startDate", "2025-01-01"), ("endDate", "2025-01-31")]
      = getCacheKey [("startDate", "2025-01-01"), ("endDate", "2025-01-31")]
  ∧ getCacheKey [("startDate", "2025-01-01"), ("endDate", "2025-01-31")]
      ≠ getCacheKey [("startDate", "2025-01-01"), ("endDate", "2025-02-28")] :=
  ⟨c1_getCacheKey_amended.1 _ _ rfl (by decide) (fun _ => rfl),
   c1_getCacheKey_amended.2 _ _ "endDate" "2025-01-31" "2025-02-28"
     (by decide) (by decide) (by decide)⟩

/-- A concrete dashboard state used to instantiate the claim theorems:
authorized, January 2025 date range, default sort, no cursors, empty
data cache with the 1-hour TTL. -/
def sampleState : DashState :=
  { authToken := some "tok"
    totalSalesData := [⟨"2025-01-02", 250⟩]
    salesData := [⟨"1", "2025-01-02T10:00:00Z", 250, "a@b.com", "+1", 0⟩]
    loading := false
    error := none
    startDate := "2025-01-01"
    endDate := "2025-01-31"
    priceMin := ""
    email := ""
    phone := ""
    beforeToken := ""
    afterToken := ""
    currentPage := 1
    sortBy := "date"
    sortOrder := "asc"
    dataCache := ⟨[], 3600000⟩ }

/-- Claim C4 counterexample: the standalone api helper
(src/lib/api.ts / src/unnamed/part_002) drops fields whose value is the
empty string, so a params object with priceMin unset produces a request
missing the priceMin field entirely. -/
theorem c4_searchParams_counterexample :
    ("priceMin", "") ∈ ([("startDate", "2025-01-01"), ("endDate", "2025-01-31"),
        ("priceMin", ""), ("email", ""), ("phone", ""), ("sortBy", "date"),
        ("sortOrder", "asc")] : List (String × String))
  ∧ ("priceMin", "") ∉ apiFetchSalesDataSearchParams
        [("startDate", "2025-01-01"), ("endDate", "2025-01-31"),
         ("priceMin", ""), ("email", ""), ("phone", ""), ("sortBy", "date"),
         ("sortOrder", "asc")]
  ∧ apiFetchSalesDataSearchParams
        [("startDate", "2025-01-01"), ("endDate", "2025-01-31"),
         ("priceMin", ""), ("email", ""), ("phone", ""), ("sortBy", "date"),
         ("sortOrder", "asc")]
      = [("startDate", "2025-01-01"), ("endDate", "2025-01-31"),
         ("sortBy", "date"), ("sortOrder", "asc")] := by
  refine ⟨by decide, by decide, by decide⟩

/-- The JS (value || "") default is the identity on string values. -/
theorem jsOrEmpty_eq (v : String) : jsOrEmpty v = v := by
  unfold jsOrEmpty
  by_cases h : v = ""
  · rw [if_pos h, h]
  · rw [if_neg h]

/-- Claim C4 (amended): in the dashboard variant of fetchSalesData
(SalesDashboard.tsx / part_005), which the controller calls, the request
query contains every field of the QueryParams object with its value —
empty-string values included, no field omitted.  The standalone api.ts /
part_002 helper violates the original claim by omitting empty fields
(see the counterexample). -/
theorem c4_searchParams_amended (params : List (String × String)) :
    fetchSalesDataSearchParams params = params := by
  unfold fetchSalesDataSearchParams
  induction params with
  | nil => rfl
  | cons p rest ih => simp [jsOrEmpty_eq, ih]

/-- Claim C9: in the filters object the controller sends, the two
pagination cursors are mutually exclusive: never both present, neither
present on a direction-less fetch, the after cursor present only on a
"next" fetch with a nonempty after token, and the before cursor present
only on a "prev" fetch with a nonempty before token. -/
theorem c9_cursors_exclusive (st : DashState) (direction : Direction) :
    (¬ (("after" ∈ (buildFilters st direction).map Prod.fst)
        ∧ ("before" ∈ (buildFilters st direction).map Prod.fst)))
  ∧ (direction = Direction.null →
      "after" ∉ (buildFilters st direction).map Prod.fst
      ∧ "before" ∉ (buildFilters st direction).map Prod.fst)
  ∧ ("after" ∈ (buildFilters st direction).map Prod.fst →
      direction = Direction.next ∧ st.afterToken ≠ "")
  ∧ ("before" ∈ (buildFilters st direction).map Prod.fst →
      direction = Direction.prev ∧ st.beforeToken ≠ "") := by
  cases direction <;>
    by_cases ha : st.afterToken = "" <;>
    by_cases hb : st.beforeToken = "" <;>
    simp [buildFilters, ha, hb]

/-- Claim C9 witness: on the concrete state, a direction-less fetch sends
neither cursor. -/
theorem c9_cursors_exclusive_witness :
    "after" ∉ (buildFilters sampleState Direction.null).map Prod.fst
  ∧ "before" ∉ (buildFilters sampleState Direction.null).map Prod.fst :=
  (c9_cursors_exclusive sampleState Direction.null).2.1 rfl

/-- Claim C3: in the validating controller variant (part_005), a fetch on
an authorized state whose nonempty startDate is lexicographically after
its nonempty endDate surfaces the validation message, issues no network
call, touches neither the loading flag nor the cache, and leaves the
displayed data unchanged. -/
theorem c3_invalid_range_refuses (st : DashState) (direction : Direction) (now : Nat)
    (net : Except Unit (Option RawResponse)) (tok : String)
    (hauth : st.authToken = some tok)
    (hs : st.startDate ≠ "") (he : st.endDate ≠ "")
    (hgt : jsStringLe st.startDate st.endDate = false) :
    fetchSalesValidated st direction now net
      = ⟨{ st with error := some invalidRangeMsg }, false, []⟩ := by
  have hv : isDateRangeValid st = false := by
    simp [isDateRangeValid, hs, he, hgt]
  simp only [fetchSalesValidated, hauth]
  rw [if_neg (by simp [hv])]

/-- Claim C3 witness: the spec's validation scenario, startDate
2025-02-01 and endDate 2025-01-01. -/
theorem c3_invalid_range_refuses_witness :
    fetchSalesValidated
        { sampleState with startDate := "2025-02-01", endDate := "2025-01-01" }
        Direction.null 0 (Except.error ())
      = ⟨{ { sampleState with startDate := "2025-02-01", endDate := "2025-01-01" } with
            error := some invalidRangeMsg }, false, []⟩ :=
  c3_invalid_range_refuses
    { sampleState with startDate := "2025-02-01", endDate := "2025-01-01" }
    Direction.null 0 (Except.error ()) "tok" rfl (by decide) (by decide) (by decide)

/-- Claim C5: on an authorized state with a cache miss, when the network
call fails (FetchError) or returns a body without the results field
(null body or missing results — MalformedResponseError), the fetch
leaves the displayed rows, totals and both cursors unchanged, sets the
user-facing failure message, and ends with loading false. -/
theorem c5_failure_preserves_display (st : DashState) (direction : Direction) (now : Nat)
    (net : Except Unit (Option RawResponse)) (tok : String)
    (hauth : st.authToken = some tok)
    (hmiss : (Cache.get st.dataCache (getCacheKey (buildFilters st direction)) now).1 = none)
    (hfail : net = Except.error ()
      ∨ net = Except.ok none
      ∨ ∃ data : RawResponse, net = Except.ok (some data) ∧ data.results = none) :
    (fetchSales st direction now net).state.salesData = st.salesData
  ∧ (fetchSales st direction now net).state.totalSalesData = st.totalSalesData
  ∧ (fetchSales st direction now net).state.beforeToken = st.beforeToken
  ∧ (fetchSales st direction now net).state.afterToken = st.afterToken
  ∧ (fetchSales st direction now net).state.error = some fetchFailedMsg
  ∧ (fetchSales st direction now net).state.loading = false := by
  rcases hfail with h | h | ⟨data, h, hres⟩ <;> subst h <;>
    simp [fetchSales, fetchSalesCore, hauth, hmiss]
  simp [hres]

/-- Claim C5 witness: a concrete failing fetch on the sample state keeps
its displayed row, totals and cursors, sets the failure message, and
ends with loading false. -/
theorem c5_failure_preserves_display_witness :
    (fetchSales sampleState Direction.null 0 (Except.error ())).state.salesData
        = sampleState.salesData
  ∧ (fetchSales sampleState Direction.null 0 (Except.error ())).state.totalSalesData
        = sampleState.totalSalesData
  ∧ (fetchSales sampleState Direction.null 0 (Except.error ())).state.beforeToken
        = sampleState.beforeToken
  ∧ (fetchSales sampleState Direction.null 0 (Except.error ())).state.afterToken
        = sampleState.afterToken
  ∧ (fetchSales sampleState Direction.null 0 (Except.error ())).state.error
        = some fetchFailedMsg
  ∧ (fetchSales sampleState Direction.null 0 (Except.error ())).state.loading = false :=
  c5_failure_preserves_display sampleState Direction.null 0 (Except.error ()) "tok"
    rfl rfl (Or.inl rfl)

/-- Claim C10: on an authorized cache miss, a successful response whose
results field is present is never rejected, whatever optional sub-blocks
it lacks: the controller adopts TotalSales and Sales with empty-array
defaults and the two pagination cursors with empty-string defaults, and
no error is set; a successful response whose results field is absent is
the only body rejected as malformed — the failure message is set and the
displayed data is preserved. -/
theorem c10_missing_blocks_tolerated (st : DashState) (direction : Direction) (now : Nat)
    (tok : String) (hauth : st.authToken = some tok)
    (hmiss : (Cache.get st.dataCache (getCacheKey (buildFilters st direction)) now).1 = none) :
    (∀ (data : RawResponse) (res : RawResults), data.results = some res →
      (fetchSales st direction now (Except.ok (some data))).state.error = none
      ∧ (fetchSales st direction now (Except.ok (some data))).state.totalSalesData
          = res.TotalSales.getD []
      ∧ (fetchSales st direction now (Except.ok (some data))).state.salesData
          = res.Sales.getD []
      ∧ (fetchSales st direction now (Except.ok (some data))).state.beforeToken
          = (data.pagination.bind RawPagination.before).getD ""
      ∧ (fetchSales st direction now (Except.ok (some data))).state.afterToken
          = (data.pagination.bind RawPagination.after).getD ""
      ∧ (fetchSales st direction now (Except.ok (some data))).state.loading = false)
  ∧ (∀ data : RawResponse, data.results = none →
      (fetchSales st direction now (Except.ok (some data))).state.error = some fetchFailedMsg
      ∧ (fetchSales st direction now (Except.ok (some data))).state.totalSalesData
          = st.totalSalesData
      ∧ (fetchSales st direction now (Except.ok (some data))).state.salesData
          = st.salesData) := by
  constructor
  · intro data res hres
    simp [fetchSales, fetchSalesCore, hauth, hmiss, hres]
  · intro data hres
    simp [fetchSales, fetchSalesCore, hauth, hmiss, hres]

/-- Claim C10 witness: a response carrying an empty results block and no
pagination block is adopted as empty arrays and empty cursors with no
error; a response without results is rejected with the failure message
and the displayed row preserved. -/
theorem c10_missing_blocks_tolerated_witness :
    ((fetchSales sampleState Direction.null 0
        (Except.ok (some ⟨some ⟨none, none⟩, none⟩))).state.error = none
      ∧ (fetchSales sampleState Direction.null 0
          (Except.ok (some ⟨some ⟨none, none⟩, none⟩))).state.totalSalesData = []
      ∧ (fetchSales sampleState Direction.null 0
          (Except.ok (some ⟨some ⟨none, none⟩, none⟩))).state.salesData = []
      ∧ (fetchSales sampleState Direction.null 0
          (Except.ok (some ⟨some ⟨none, none⟩, none⟩))).state.beforeToken = ""
      ∧ (fetchSales sampleState Direction.null 0
          (Except.ok (some ⟨some ⟨none, none⟩, none⟩))).state.afterToken = "")
  ∧ ((fetchSales sampleState Direction.null 0
        (Except.ok (some ⟨none, some ⟨some "b", some "a"⟩⟩))).state.error
          = some fetchFailedMsg
      ∧ (fetchSales sampleState Direction.null 0
          (Except.ok (some ⟨none, some ⟨some "b", some "a"⟩⟩))).state.salesData
          = sampleState.salesData) := by
  have h1 := (c10_missing_blocks_tolerated sampleState Direction.null 0 "tok" rfl rfl).1
    ⟨some ⟨none, none⟩, none⟩ ⟨none, none⟩ rfl
  have h2 := (c10_missing_blocks_tolerated sampleState Direction.null 0 "tok" rfl rfl).2
    ⟨none, some ⟨some "b", some "a"⟩⟩ rfl
  exact ⟨⟨h1.1, h1.2.1, h1.2.2.1, h1.2.2.2.1, h1.2.2.2.2.1⟩, ⟨h2.1, h2.2.2⟩⟩

/-- Claim C2 (amended): on an authorized state whose current filters hit
an unexpired entry of the data cache, the fetch adopts the cached
response — rows, totals and both cursors are replaced from the cached
entry (with the same defensive defaults the code applies) — performs no
network call, and ends with the loading flag false.  The original
claim's "loading stays false throughout" fails: the code writes loading
to true before consulting the cache and back to false on the hit path,
all inside one synchronous segment (see the counterexample). -/
theorem c2_cache_hit_adopts (st : DashState) (direction : Direction) (now : Nat)
    (net : Except Unit (Option RawResponse)) (tok : String) (cached : RawResponse)
    (hauth : st.authToken = some tok)
    (hhit : (Cache.get st.dataCache (getCacheKey (buildFilters st direction)) now).1
        = some cached) :
    (fetchSales st direction now net).networkCalled = false
  ∧ (fetchSales st direction now net).state.totalSalesData
      = (cached.results.bind RawResults.TotalSales).getD []
  ∧ (fetchSales st direction now net).state.salesData
      = (cached.results.bind RawResults.Sales).getD []
  ∧ (fetchSales st direction now net).state.beforeToken
      = (cached.pagination.bind RawPagination.before).getD ""
  ∧ (fetchSales st direction now net).state.afterToken
      = (cached.pagination.bind RawPagination.after).getD ""
  ∧ (fetchSales st direction now net).state.loading = false := by
  simp [fetchSales, fetchSalesCore, hauth, hhit]

/-- A cached response used to exercise the cache-hit path. -/
def cachedResp : RawResponse :=
  ⟨some ⟨some [⟨"2025-01-05", 500⟩], some []⟩, some ⟨some "", some "tok2"⟩⟩

/-- The sample state with its own current cache key already bound in the
data cache (stored at time 0, one-hour TTL), so a fetch at time 0 hits. -/
def hitState : DashState :=
  { sampleState with
      dataCache :=
        ⟨[(getCacheKey (buildFilters sampleState Direction.null), ⟨cachedResp, 0⟩)],
         3600000⟩ }

/-- Claim C2 counterexample: on a concrete cache hit the fetch indeed
performs no network call and adopts the cached cursors, but the loading
flag does not stay false throughout — the operation writes true and then
false to it, because setLoading(true) runs before the cache lookup. -/
theorem c2_cache_hit_counterexample :
    (fetchSales hitState Direction.null 0 (Except.error ())).networkCalled = false
  ∧ (fetchSales hitState Direction.null 0 (Except.error ())).state.afterToken = "tok2"
  ∧ (fetchSales hitState Direction.null 0 (Except.error ())).loadingWrites = [true, false] := by
  refine ⟨?_, ?_, ?_⟩ <;> decide

/-- Claim C2 witness: the amended statement instantiated on the concrete
cache hit. -/
theorem c2_cache_hit_adopts_witness :
    (fetchSales hitState Direction.null 0 (Except.error ())).state.totalSalesData
        = [⟨"2025-01-05", 500⟩]
  ∧ (fetchSales hitState Direction.null 0 (Except.error ())).state.loading = false := by
  have h := c2_cache_hit_adopts hitState Direction.null 0 (Except.error ()) "tok" cachedResp
    rfl (by decide)
  exact ⟨by rw [h.2.1]; decide, h.2.2.2.2.2⟩
